import Mathlib

/-!
Shallow embedding of the space_packets repository (CCSDS-style space packet
framing) and proofs about it.

Conventions of the embedding:
- Rust `u8` buffers (`&[u8]`, `Vec<u8>`) become `List Nat`, each element meant
  to be `< 256`; `u16`/`u32` become `Nat` with explicit truncation (`&&& 0xFFFF`)
  exactly where the Rust integer type truncates.
- Rust panics (failed `unwrap`, `assert_eq!`, out-of-range slicing, and
  debug-mode arithmetic underflow) are modelled as `Except Panic` errors, one
  constructor per panic site kind.  A `.error` result of these functions means
  the Rust program aborts by panicking; it is not a recoverable error value in
  the Rust code (the Rust signatures return plain values, not `Result`).
- The async reader loop of `src/io/reader.rs` is modelled as a pure function
  from the full byte stream to the ordered list of packets published on the
  broadcast channel plus a terminal outcome.  Fuel bounds the loop; the chosen
  fuel (stream length + 1) always suffices because every continuing iteration
  consumes at least 7 bytes of the source.
-/

set_option maxRecDepth 200000

namespace SpacePackets

/-- Decidable equality on `Except`, used to evaluate the embedded functions on
concrete inputs. -/
instance {ε α : Type} [DecidableEq ε] [DecidableEq α] : DecidableEq (Except ε α) := fun a b =>
  match a, b with
  | .ok x, .ok y => decidable_of_iff (x = y) (by simp)
  | .error x, .error y => decidable_of_iff (x = y) (by simp)
  | .ok _, .error _ => .isFalse (by simp)
  | .error _, .ok _ => .isFalse (by simp)

/-- Rust slice expression `&l[a..b]` (bounds are checked separately at each
use site, mirroring the panic checks of slicing). -/
def listSlice (l : List Nat) (a b : Nat) : List Nat :=
  (l.take b).drop a

/-- Kinds of Rust panic sites reachable in `protocol/packet.rs` and
`protocol/primary_header.rs` (debug-build semantics for integer underflow). -/
inductive Panic where
  /-- a failed `unwrap()` / unreachable match arm -/
  | unwrapFail
  /-- debug-mode underflow of `data_buf.len() - 2` -/
  | subOverflow
  /-- out-of-range slice such as `&data_buf[0..8]` on a short buffer -/
  | sliceOutOfRange
  /-- the `assert_eq!(checksum, 0)` checksum-validation assertion -/
  | assertEqFail
deriving DecidableEq, Repr

/-! ## protocol/primary_header.rs -/

/-- Packet type enum, `PktType` in `primary_header.rs`. -/
inductive PktType where
  | Telemetry
  | Telecommand
deriving DecidableEq, Repr

/-- Rust `self.packet_type as u16` (enum discriminants 0 and 1). -/
def PktType.toNat : PktType → Nat
  | .Telemetry => 0
  | .Telecommand => 1

/-- The seven bit-packed fields of the 6-byte primary header.  Field types in
Rust are u8 (`version_number`, `sequence_flags`), bool, and u16; bounds appear
as hypotheses of the theorems. -/
structure PrimaryHeader where
  version_number : Nat
  packet_type : PktType
  secondary_header_flag : Bool
  apid : Nat
  sequence_flags : Nat
  sequence_counter : Nat
  data_length : Nat
deriving DecidableEq, Repr

/-- Big-endian `read_u16` of two bytes. -/
def read_u16 (b0 b1 : Nat) : Nat := (b0 <<< 8) ||| b1

/-- Mask/shift extraction `get_version_number` (mask 0xE000, shift 13). -/
def get_version_number (val : Nat) : Nat := (val &&& 0xE000) >>> 13

/-- Mask/shift extraction `get_packet_type` (mask 0x1000, shift 12); the
wildcard match arm is a `panic!` in the source and is modelled as `none`. -/
def get_packet_type (val : Nat) : Option PktType :=
  match (val &&& 0x1000) >>> 12 with
  | 0 => some .Telemetry
  | 1 => some .Telecommand
  | _ => none

/-- Mask/shift extraction `get_secondary_header_flag` (mask 0x0800, shift 11,
compared with 0). -/
def get_secondary_header_flag (val : Nat) : Bool :=
  ((val &&& 0x0800) >>> 11) != 0

/-- Mask extraction `get_apid` (mask 0x07FF). -/
def get_apid (val : Nat) : Nat := val &&& 0x07FF

/-- Mask/shift extraction `get_sequence_flags` (mask 0xC000, shift 14). -/
def get_sequence_flags (val : Nat) : Nat := (val &&& 0xC000) >>> 14

/-- Mask extraction `get_sequence_counter` (mask 0x3FFF). -/
def get_sequence_counter (val : Nat) : Nat := val &&& 0x3FFF

/-- Rust `PrimaryHeader::from_buffer`: three big-endian u16 reads from the first six
bytes, then pure mask/shift extraction.  `none` models the panics (cursor
`unwrap` on a short buffer, or the unreachable `get_packet_type` arm). -/
def PrimaryHeader.from_buffer (buf : List Nat) : Option PrimaryHeader :=
  match buf with
  | b0 :: b1 :: b2 :: b3 :: b4 :: b5 :: _ =>
    let val1 := read_u16 b0 b1
    match get_packet_type val1 with
    | none => none
    | some packet_type =>
      let val2 := read_u16 b2 b3
      let val3 := read_u16 b4 b5
      some {
        version_number := get_version_number val1
        packet_type := packet_type
        secondary_header_flag := get_secondary_header_flag val1
        apid := get_apid val1
        sequence_flags := get_sequence_flags val2
        sequence_counter := get_sequence_counter val2
        data_length := val3 }
  | _ => none

/-- Rust `PrimaryHeader::get_buffer`: packs the fields into three u16 words
(shifts on u16 truncate to 16 bits, hence the `&&& 0xFFFF` on the shifts of
the u8-typed fields) and writes them big-endian. -/
def PrimaryHeader.get_buffer (h : PrimaryHeader) : List Nat :=
  let val1 := ((h.version_number <<< 13) &&& 0xFFFF) |||
    (h.packet_type.toNat <<< 12) ||| (h.secondary_header_flag.toNat <<< 11) ||| h.apid
  let val2 := ((h.sequence_flags <<< 14) &&& 0xFFFF) ||| h.sequence_counter
  let val3 := h.data_length
  [val1 >>> 8, val1 &&& 0xFF, val2 >>> 8, val2 &&& 0xFF, val3 >>> 8, val3 &&& 0xFF]

/-! ## protocol/secondary_header.rs -/

/-- The optional fixed 8-byte secondary header: two big-endian u32 words. -/
structure SecondaryHeader where
  time_week : Nat
  time_ms : Nat
deriving DecidableEq, Repr

/-- Big-endian `read_u32` of four bytes. -/
def read_u32 (b0 b1 b2 b3 : Nat) : Nat :=
  (b0 <<< 24) ||| (b1 <<< 16) ||| (b2 <<< 8) ||| b3

/-- Rust `SecondaryHeader::from_buffer`: two big-endian u32 reads; `none` models the
cursor `unwrap` panic on a buffer shorter than 8 bytes. -/
def SecondaryHeader.from_buffer (buf : List Nat) : Option SecondaryHeader :=
  match buf with
  | b0 :: b1 :: b2 :: b3 :: b4 :: b5 :: b6 :: b7 :: _ =>
    some { time_week := read_u32 b0 b1 b2 b3, time_ms := read_u32 b4 b5 b6 b7 }
  | _ => none

/-- Rust `SecondaryHeader::get_buffer`: the two fields written back big-endian. -/
def SecondaryHeader.get_buffer (h : SecondaryHeader) : List Nat :=
  [h.time_week >>> 24 &&& 0xFF, h.time_week >>> 16 &&& 0xFF,
   h.time_week >>> 8 &&& 0xFF, h.time_week &&& 0xFF,
   h.time_ms >>> 24 &&& 0xFF, h.time_ms >>> 16 &&& 0xFF,
   h.time_ms >>> 8 &&& 0xFF, h.time_ms &&& 0xFF]

/-! ## protocol/user_data_field.rs -/

/-- Opaque variable-length payload wrapper. -/
structure UserDataField where
  data : List Nat
deriving DecidableEq, Repr

/-- Rust `UserDataField::from_buffer` (plain copy). -/
def UserDataField.from_buffer (buf : List Nat) : UserDataField := { data := buf }

/-- Rust `UserDataField::get_buffer` (plain copy). -/
def UserDataField.get_buffer (u : UserDataField) : List Nat := u.data

/-! ## The checksum accumulator (`mod hasher`)

`protocol/mod.rs` declares `mod hasher;` but `hasher.rs` is not among the
available source files, so this component is modelled from the spec. -/

/-- Modelled from the spec: the checksum accumulator module (`hasher.rs`) is
declared by `protocol/mod.rs` but missing from the sources.  Spec section 6
fixes its contract (incremental accumulation over byte sequences, a zero valid
sentinel for a whole validated frame) and section 9 requires any substitute to
match the two worked examples of section 8.  CRC-16/CCITT-FALSE (polynomial
0x1021, initial state 0xFFFF) reproduces both worked example checksums
(0xC1F8 and 0x2DDD) and yields 0 over each full frame, so the accumulator is
modelled as that CRC.  This is one shift-and-conditional-xor round of it. -/
def crcRound (r : Nat) : Nat :=
  if r.testBit 15 then ((r <<< 1) ^^^ 0x1021) &&& 0xFFFF else (r <<< 1) &&& 0xFFFF

/-- Modelled from the spec: `n` rounds of the CRC shift register. -/
def crcRounds : Nat → Nat → Nat
  | 0, r => r
  | n + 1, r => crcRounds n (crcRound r)

/-- Modelled from the spec: absorbing one byte into the CRC state (xor into
the high byte of the 16-bit state, then eight register rounds). -/
def crcStep (state byte : Nat) : Nat :=
  crcRounds 8 (state ^^^ (byte <<< 8))

/-- Modelled from the spec: the accumulator start state, `hasher::INITIAL_VALUE`
at the call sites in `packet.rs` (0xFFFF for CRC-16/CCITT-FALSE). -/
def INITIAL_VALUE : Nat := 0xFFFF

/-- Modelled from the spec: running the accumulator over a byte sequence from a
given state; this is `accumulate` of spec section 6 and the missing
`hasher::compute_partial` of the `packet.rs` call sites. -/
def accumulate (state : Nat) (buf : List Nat) : Nat :=
  buf.foldl crcStep state

/-- Modelled from the spec: `finalize_and_append` of spec section 6 and the
missing `hasher::append_partial_checksum`: continue the accumulator over `buf`
from `state` and append the resulting 16-bit checksum big-endian. -/
def finalize_and_append (state : Nat) (buf : List Nat) : List Nat :=
  let c := accumulate state buf
  buf ++ [c >>> 8, c &&& 0xFF]

/-- Modelled from the spec: the missing `hasher::append_checksum`: checksum of
the whole buffer from the initial state, appended big-endian. -/
def append_checksum (buf : List Nat) : List Nat :=
  finalize_and_append INITIAL_VALUE buf

/-! ## protocol/packet.rs -/

/-- The packet aggregate: primary header, optional secondary header, optional
user data, and the 16-bit checksum. -/
structure Packet where
  pri_header : PrimaryHeader
  sec_header : Option SecondaryHeader
  user_data : Option UserDataField
  checksum : Nat
deriving DecidableEq, Repr

/-- Rust `Packet::from_buffers(header_buf, data_buf)`.  The Rust function returns a
bare `Packet`; every failure is a panic, modelled by `Except Panic`:
- decoding the primary header (unwrap panics inside `from_buffer`),
- `let end = data_buf.len() - 2` (debug-mode underflow when `len < 2`),
- `&data_buf[0..8]` in the secondary-header branches (slice panic when
  `len < 8`; in the branch where user data is present, `len > 10` already
  holds, so that slicing cannot fail),
- `assert_eq!(checksum, 0)` over header bytes then all data bytes,
- reading the trailing two checksum bytes. -/
def Packet.from_buffers (header_buf data_buf : List Nat) : Except Panic Packet :=
  match PrimaryHeader.from_buffer header_buf with
  | none => .error .unwrapFail
  | some pri_header =>
    let has_sec_header := pri_header.secondary_header_flag
    let has_user_data : Bool :=
      if has_sec_header then decide (data_buf.length > 10) else decide (data_buf.length > 2)
    if data_buf.length < 2 then .error .subOverflow
    else
      let endIdx := data_buf.length - 2
      let parsed : Except Panic (Option SecondaryHeader × Option UserDataField) :=
        match has_sec_header, has_user_data with
        | true, true =>
          match SecondaryHeader.from_buffer (listSlice data_buf 0 8) with
          | some sec => .ok (some sec, some (UserDataField.from_buffer (listSlice data_buf 8 endIdx)))
          | none => .error .unwrapFail
        | true, false =>
          if data_buf.length < 8 then .error .sliceOutOfRange
          else
            match SecondaryHeader.from_buffer (listSlice data_buf 0 8) with
            | some sec => .ok (some sec, none)
            | none => .error .unwrapFail
        | false, true => .ok (none, some (UserDataField.from_buffer (listSlice data_buf 0 endIdx)))
        | false, false => .ok (none, none)
      match parsed with
      | .error p => .error p
      | .ok (sec_header, user_data) =>
        let checksum := accumulate (accumulate INITIAL_VALUE header_buf) data_buf
        if checksum ≠ 0 then .error .assertEqFail
        else
          match data_buf.drop (data_buf.length - 2) with
          | [c0, c1] =>
            .ok { pri_header := pri_header, sec_header := sec_header,
                  user_data := user_data, checksum := read_u16 c0 c1 }
          | _ => .error .unwrapFail

/-- Rust `Packet::new`: compose a packet in memory, checksumming header, optional
secondary header, and optional user data incrementally. -/
def Packet.new (pri_header : PrimaryHeader) (sec_header : Option SecondaryHeader)
    (user_data : Option UserDataField) : Packet :=
  let checksum0 := accumulate INITIAL_VALUE pri_header.get_buffer
  let checksum1 := match sec_header with
    | some h => accumulate checksum0 h.get_buffer
    | none => checksum0
  let checksum2 := match user_data with
    | some d => accumulate checksum1 d.get_buffer
    | none => checksum1
  { pri_header := pri_header, sec_header := sec_header,
    user_data := user_data, checksum := checksum2 }

/-- Rust `Packet::into_buffer`: serialize header, optional secondary header,
optional user data, then compute and append the checksum over everything. -/
def Packet.into_buffer (p : Packet) : List Nat :=
  let buf := p.pri_header.get_buffer
  let buf := buf ++ (match p.sec_header with | some h => h.get_buffer | none => [])
  let buf := buf ++ (match p.user_data with | some d => d.get_buffer | none => [])
  append_checksum buf

/-- Rust `Packet::into_buffers`: the (header, data-field) split; the checksum is
accumulated over the header alone and then continued over the rest. -/
def Packet.into_buffers (p : Packet) : List Nat × List Nat :=
  let header := p.pri_header.get_buffer
  let checksum := accumulate INITIAL_VALUE header
  let buf := (match p.sec_header with | some h => h.get_buffer | none => [])
  let buf := buf ++ (match p.user_data with | some d => d.get_buffer | none => [])
  (header, finalize_and_append checksum buf)

/-! ## io/reader.rs -/

/-- Rust `HEADER_SIZE`: fixed 6-byte size of the primary header. -/
def HEADER_SIZE : Nat := 6

/-- Rust `Vec::resize(n, 0)`: truncate or zero-pad to length `n`. -/
def vecResize (l : List Nat) (n : Nat) : List Nat :=
  (l ++ List.replicate n 0).take n

/-- Terminal outcome of one `Reader::run` call. -/
inductive Terminal where
  /-- Rust `run` returned `Ok(())` after the stop signal -/
  | cleanStop
  /-- Rust `run` returned `Err` because the body read failed (`with_context` path) -/
  | readErr
  /-- a panic escaped, from `Packet::from_buffers` inside `parse` -/
  | panicked (p : Panic)
  /-- fuel exhausted (never reached for the fuel used by `Reader.run`) -/
  | fuelOut
deriving DecidableEq, Repr

/-- One `Reader::run` loop, as a function of the remaining source bytes and the
current `header_buf` and `data_buf` fields.  Mirrors the Rust control flow:
`read()` maps a header-read `UnexpectedEof` (whether zero or a partial 1-5
bytes were available) to the stop signal `Ok(true)`, but `run()` still calls
`parse()` and `channel.send(pkt)` on the buffers before breaking, so the stop
iteration re-parses stale buffer contents; a short body read is a fatal error;
otherwise the parsed packet is sent and the loop continues.  Returns the
packets published to the broadcast channel, in send order, with the terminal
outcome. -/
def Reader.runAux : Nat → List Nat → List Nat → List Nat → List Packet × Terminal
  | 0, _, _, _ => ([], .fuelOut)
  | fuel + 1, src, header_buf, data_buf =>
    let hb0 := vecResize header_buf HEADER_SIZE
    if src.length < HEADER_SIZE then
      -- read_exact stops early: the bytes that were available overwrite the
      -- front of the stale header buffer, and run() parses and sends anyway
      let hbStale := src ++ hb0.drop src.length
      match Packet.from_buffers hbStale data_buf with
      | .ok pkt => ([pkt], .cleanStop)
      | .error p => ([], .panicked p)
    else
      let hb := src.take HEADER_SIZE
      let rest := src.drop HEADER_SIZE
      let data_len := read_u16 (hb.getD 4 0) (hb.getD 5 0) + 1
      if rest.length < data_len then ([], .readErr)
      else
        let db := rest.take data_len
        match Packet.from_buffers hb db with
        | .ok pkt =>
          let next := Reader.runAux fuel (rest.drop data_len) hb db
          (pkt :: next.1, next.2)
        | .error p => ([], .panicked p)

/-- Rust `Reader::run` on a fresh reader (`header_buf` and `data_buf` start empty):
the whole loop over a finite byte source. -/
def Reader.run (src : List Nat) : List Packet × Terminal :=
  Reader.runAux (src.length + 1) src [] []

/-! ## Concrete frames from the repository tests and spec section 8 -/

/-- Worked example SP1: header bytes. -/
def SP1_HEADER : List Nat := [0x08, 0x73, 0xC1, 0x23, 0x00, 0x0F]

/-- Worked example SP1: data-field bytes (16 bytes, `0x0F + 1`). -/
def SP1_BODY : List Nat :=
  [0x00, 0x00, 0x12, 0x34, 0x00, 0xAB, 0xCD, 0xEF,
   0xA5, 0xA5, 0x5A, 0x5A, 0xC3, 0x3C, 0xC1, 0xF8]

/-- Worked example SP2 (no secondary header): header bytes. -/
def SP2_HEADER : List Nat := [0x17, 0x54, 0xC6, 0x82, 0x00, 0x04]

/-- Worked example SP2: data-field bytes (5 bytes, `0x04 + 1`). -/
def SP2_BODY : List Nat := [0x01, 0x02, 0x00, 0x2D, 0xDD]

/-- The packet SP1 decodes to. -/
def sp1Packet : Packet :=
  { pri_header :=
      { version_number := 0, packet_type := .Telemetry, secondary_header_flag := true,
        apid := 0x0073, sequence_flags := 0x03, sequence_counter := 0x0123,
        data_length := 0x000F }
    sec_header := some { time_week := 0x00001234, time_ms := 0x00ABCDEF }
    user_data := some { data := [0xA5, 0xA5, 0x5A, 0x5A, 0xC3, 0x3C] }
    checksum := 0xC1F8 }

/-- The packet SP2 decodes to. -/
def sp2Packet : Packet :=
  { pri_header :=
      { version_number := 0, packet_type := .Telecommand, secondary_header_flag := false,
        apid := 0x0754, sequence_flags := 0x03, sequence_counter := 0x0682,
        data_length := 0x0004 }
    sec_header := none
    user_data := some { data := [0x01, 0x02, 0x00] }
    checksum := 0x2DDD }

/-! ## Bit-manipulation bridge lemmas

These connect the mask/shift extractions of `primary_header.rs` with their
division/modulus arithmetic meaning, so that the round-trip facts reduce to
linear arithmetic. -/

theorem lor_shiftLeft_add (a b n : Nat) (hb : b < 2 ^ n) :
    (a <<< n) ||| b = a * 2 ^ n + b := by
  apply Nat.eq_of_testBit_eq
  intro j
  rw [Nat.testBit_lor, Nat.testBit_shiftLeft, Nat.mul_comm,
    Nat.testBit_mul_pow_two_add a hb j]
  by_cases hj : j < n
  · simp [Nat.not_le.mpr hj, hj]
  · have hle : n ≤ j := Nat.not_lt.mp hj
    have hbj : b.testBit j = false :=
      Nat.testBit_lt_two_pow (lt_of_lt_of_le hb (Nat.pow_le_pow_right (by norm_num) hle))
    simp [hle, hj, hbj]

theorem and_mask_shiftRight (w k n : Nat) :
    (w &&& ((2 ^ k - 1) * 2 ^ n)) >>> n = w / 2 ^ n % 2 ^ k := by
  apply Nat.eq_of_testBit_eq
  intro j
  rw [Nat.testBit_shiftRight, Nat.testBit_and, ← Nat.shiftLeft_eq,
    Nat.testBit_shiftLeft, ← Nat.shiftRight_eq_div_pow, Nat.testBit_mod_two_pow,
    Nat.testBit_shiftRight, Nat.add_sub_cancel_left, Nat.testBit_two_pow_sub_one]
  simp [Nat.le_add_right, Bool.and_comm]

theorem get_version_number_eq (w : Nat) : get_version_number w = w / 8192 % 8 := by
  have h := and_mask_shiftRight w 3 13
  norm_num at h
  exact h

theorem packet_type_bits_eq (w : Nat) : (w &&& 0x1000) >>> 12 = w / 4096 % 2 := by
  have h := and_mask_shiftRight w 1 12
  norm_num at h
  exact h

theorem flag_bits_eq (w : Nat) : (w &&& 0x0800) >>> 11 = w / 2048 % 2 := by
  have h := and_mask_shiftRight w 1 11
  norm_num at h
  exact h

theorem get_apid_eq (w : Nat) : get_apid w = w % 2048 := by
  have h := Nat.and_pow_two_sub_one_eq_mod w 11
  norm_num at h
  exact h

theorem get_sequence_flags_eq (w : Nat) : get_sequence_flags w = w / 16384 % 4 := by
  have h := and_mask_shiftRight w 2 14
  norm_num at h
  exact h

theorem get_sequence_counter_eq (w : Nat) : get_sequence_counter w = w % 16384 := by
  have h := Nat.and_pow_two_sub_one_eq_mod w 14
  norm_num at h
  exact h

theorem and_FFFF_eq (w : Nat) : w &&& 0xFFFF = w % 65536 := by
  have h := Nat.and_pow_two_sub_one_eq_mod w 16
  norm_num at h
  exact h

theorem and_FF_eq (w : Nat) : w &&& 0xFF = w % 256 := by
  have h := Nat.and_pow_two_sub_one_eq_mod w 8
  norm_num at h
  exact h

theorem shiftRight8_eq (w : Nat) : w >>> 8 = w / 256 := by
  have h := Nat.shiftRight_eq_div_pow w 8
  norm_num at h
  exact h

theorem read_u16_eq (b0 b1 : Nat) (h : b1 < 256) : read_u16 b0 b1 = b0 * 256 + b1 := by
  have h2 := lor_shiftLeft_add b0 b1 8 (by norm_num [h])
  norm_num at h2
  exact h2

theorem read_u16_split (w : Nat) : read_u16 (w >>> 8) (w &&& 0xFF) = w := by
  rw [shiftRight8_eq, and_FF_eq, read_u16_eq _ _ (Nat.mod_lt _ (by norm_num))]
  omega

theorem get_packet_type_eq (w : Nat) :
    get_packet_type w = some (if w / 4096 % 2 = 1 then .Telecommand else .Telemetry) := by
  unfold get_packet_type
  rw [packet_type_bits_eq]
  rcases Nat.mod_two_eq_zero_or_one (w / 4096) with h | h
  · rw [h]; simp
  · rw [h]; simp

theorem get_secondary_header_flag_eq (w : Nat) :
    get_secondary_header_flag w = decide (w / 2048 % 2 = 1) := by
  unfold get_secondary_header_flag
  rw [flag_bits_eq]
  rcases Nat.mod_two_eq_zero_or_one (w / 2048) with h | h
  · rw [h]; simp
  · rw [h]; simp

theorem header_word1_eq (vn ptN shfN ap : Nat) (hv : vn < 8) (hp : ptN ≤ 1)
    (hs : shfN ≤ 1) (ha : ap < 2048) :
    ((vn <<< 13) &&& 0xFFFF) ||| (ptN <<< 12) ||| (shfN <<< 11) ||| ap
      = vn * 8192 + ptN * 4096 + shfN * 2048 + ap := by
  have e0 : (vn <<< 13) &&& 0xFFFF = vn <<< 13 := by
    rw [and_FFFF_eq, Nat.mod_eq_of_lt]
    rw [Nat.shiftLeft_eq]
    norm_num
    omega
  rw [e0]
  rw [Nat.lor_assoc, Nat.lor_assoc]
  have e1 : (shfN <<< 11) ||| ap = shfN * 2048 + ap := by
    have h := lor_shiftLeft_add shfN ap 11 (by norm_num [ha])
    norm_num at h
    exact h
  rw [e1]
  have e2 : (ptN <<< 12) ||| (shfN * 2048 + ap) = ptN * 4096 + (shfN * 2048 + ap) := by
    have h := lor_shiftLeft_add ptN (shfN * 2048 + ap) 12 (by norm_num; omega)
    norm_num at h
    exact h
  rw [e2]
  have e3 : (vn <<< 13) ||| (ptN * 4096 + (shfN * 2048 + ap))
      = vn * 8192 + (ptN * 4096 + (shfN * 2048 + ap)) := by
    have h := lor_shiftLeft_add vn (ptN * 4096 + (shfN * 2048 + ap)) 13 (by norm_num; omega)
    norm_num at h
    exact h
  rw [e3]
  omega

theorem header_word2_eq (sf sc : Nat) (hf : sf < 4) (hc : sc < 16384) :
    ((sf <<< 14) &&& 0xFFFF) ||| sc = sf * 16384 + sc := by
  have e0 : (sf <<< 14) &&& 0xFFFF = sf <<< 14 := by
    rw [and_FFFF_eq, Nat.mod_eq_of_lt]
    rw [Nat.shiftLeft_eq]
    norm_num
    omega
  rw [e0]
  have h := lor_shiftLeft_add sf sc 14 (by norm_num [hc])
  norm_num at h
  exact h

theorem length_six_exists (l : List Nat) (h : l.length = 6) :
    ∃ b0 b1 b2 b3 b4 b5, l = [b0, b1, b2, b3, b4, b5] := by
  rcases l with _ | ⟨b0, l⟩
  · simp at h
  rcases l with _ | ⟨b1, l⟩
  · simp at h
  rcases l with _ | ⟨b2, l⟩
  · simp at h
  rcases l with _ | ⟨b3, l⟩
  · simp at h
  rcases l with _ | ⟨b4, l⟩
  · simp at h
  rcases l with _ | ⟨b5, l⟩
  · simp at h
  rcases l with _ | ⟨b6, l⟩
  · exact ⟨b0, b1, b2, b3, b4, b5, rfl⟩
  · simp at h

/-! ## Claim theorems: primary header codec (C1, C10) -/

/-- C1: primary header codec round-trip.  For every `PrimaryHeader` whose
fields are within their declared bit ranges (version_number 3 bits, apid 11
bits, sequence_flags 2 bits, sequence_counter 14 bits, data_length 16 bits),
`from_buffer (get_buffer h) = some h`; and for every 6-byte buffer (bytes
below 256), decoding then re-encoding reproduces the buffer byte for byte. -/
theorem primary_header_roundtrip :
    (∀ h : PrimaryHeader, h.version_number < 8 → h.apid < 2048 →
      h.sequence_flags < 4 → h.sequence_counter < 16384 → h.data_length < 65536 →
      PrimaryHeader.from_buffer h.get_buffer = some h)
    ∧ (∀ b : List Nat, b.length = 6 → (∀ x ∈ b, x < 256) →
      (PrimaryHeader.from_buffer b).map PrimaryHeader.get_buffer = some b) := by
  constructor
  · intro h
    obtain ⟨vn, pt, shf, ap, sf, sc, dl⟩ := h
    dsimp only
    intro hv ha hs hc hd
    have hpt : pt.toNat ≤ 1 := by cases pt <;> simp [PktType.toNat]
    have hshf : shf.toNat ≤ 1 := Bool.toNat_le shf
    simp only [PrimaryHeader.get_buffer]
    rw [header_word1_eq vn pt.toNat shf.toNat ap hv hpt hshf ha,
      header_word2_eq sf sc hs hc]
    set w1 := vn * 8192 + pt.toNat * 4096 + shf.toNat * 2048 + ap with hw1
    set w2 := sf * 16384 + sc with hw2
    simp only [PrimaryHeader.from_buffer, read_u16_split, get_packet_type_eq,
      get_version_number_eq, get_secondary_header_flag_eq, get_apid_eq,
      get_sequence_flags_eq, get_sequence_counter_eq]
    have e1 : w1 / 8192 % 8 = vn := by omega
    have e2 : w1 / 4096 % 2 = pt.toNat := by omega
    have e3 : w1 / 2048 % 2 = shf.toNat := by omega
    have e4 : w1 % 2048 = ap := by omega
    have e5 : w2 / 16384 % 4 = sf := by omega
    have e6 : w2 % 16384 = sc := by omega
    rw [e1, e2, e3, e4, e5, e6]
    have ept : (if pt.toNat = 1 then PktType.Telecommand else PktType.Telemetry) = pt := by
      cases pt <;> simp [PktType.toNat]
    have eshf : (decide (shf.toNat = 1)) = shf := by
      cases shf <;> simp
    rw [ept, eshf]
  · intro b hlen hbytes
    obtain ⟨b0, b1, b2, b3, b4, b5, rfl⟩ := length_six_exists b hlen
    have h0 : b0 < 256 := hbytes b0 (by simp)
    have h1 : b1 < 256 := hbytes b1 (by simp)
    have h2 : b2 < 256 := hbytes b2 (by simp)
    have h3 : b3 < 256 := hbytes b3 (by simp)
    have h4 : b4 < 256 := hbytes b4 (by simp)
    have h5 : b5 < 256 := hbytes b5 (by simp)
    simp only [PrimaryHeader.from_buffer, read_u16_eq b0 b1 h1, read_u16_eq b2 b3 h3,
      read_u16_eq b4 b5 h5, get_packet_type_eq, get_version_number_eq,
      get_secondary_header_flag_eq, get_apid_eq, get_sequence_flags_eq,
      get_sequence_counter_eq, Option.map_some', PrimaryHeader.get_buffer]
    set w1 := b0 * 256 + b1 with hw1
    set w2 := b2 * 256 + b3 with hw2
    set w3 := b4 * 256 + b5 with hw3
    have hptN : (if w1 / 4096 % 2 = 1 then PktType.Telecommand else PktType.Telemetry).toNat
        = w1 / 4096 % 2 := by
      rcases Nat.mod_two_eq_zero_or_one (w1 / 4096) with h | h <;> rw [h] <;> simp [PktType.toNat]
    have hshfN : (decide (w1 / 2048 % 2 = 1)).toNat = w1 / 2048 % 2 := by
      rcases Nat.mod_two_eq_zero_or_one (w1 / 2048) with h | h <;> rw [h] <;> simp
    rw [hptN, hshfN]
    rw [header_word1_eq _ _ _ _ (by omega) (by omega) (by omega) (by omega)]
    rw [header_word2_eq _ _ (by omega) (by omega)]
    have r1 : (w1 / 8192 % 8) * 8192 + (w1 / 4096 % 2) * 4096 + (w1 / 2048 % 2) * 2048
        + w1 % 2048 = w1 := by omega
    have r2 : (w2 / 16384 % 4) * 16384 + w2 % 16384 = w2 := by omega
    rw [r1, r2]
    have d1 : w1 >>> 8 = b0 := by rw [shiftRight8_eq]; omega
    have d2 : w1 &&& 0xFF = b1 := by rw [and_FF_eq]; omega
    have d3 : w2 >>> 8 = b2 := by rw [shiftRight8_eq]; omega
    have d4 : w2 &&& 0xFF = b3 := by rw [and_FF_eq]; omega
    have d5 : w3 >>> 8 = b4 := by rw [shiftRight8_eq]; omega
    have d6 : w3 &&& 0xFF = b5 := by rw [and_FF_eq]; omega
    rw [d1, d2, d3, d4, d5, d6]

/-- C1 witness: the round-trip theorem applied to the concrete SP1 header
value and to the concrete SP2 header bytes. -/
theorem primary_header_roundtrip_witness :
    PrimaryHeader.from_buffer (PrimaryHeader.get_buffer sp1Packet.pri_header)
        = some sp1Packet.pri_header
      ∧ (PrimaryHeader.from_buffer SP2_HEADER).map PrimaryHeader.get_buffer = some SP2_HEADER :=
  ⟨primary_header_roundtrip.1 sp1Packet.pri_header (by decide) (by decide) (by decide)
      (by decide) (by decide),
    primary_header_roundtrip.2 SP2_HEADER (by decide)
      (by intro x hx; simp [SP2_HEADER] at hx; omega)⟩

/-- C10: implicit totality of header decode.  Decoding any 6-byte buffer
succeeds (no malformed-header failure is possible), because the masked 1-bit
packet-type value `(val &&& 0x1000) >>> 12` is 0 or 1 for every word, so the
panicking wildcard arm of `get_packet_type` is unreachable. -/
theorem header_decode_total :
    (∀ buf : List Nat, buf.length = 6 → (PrimaryHeader.from_buffer buf).isSome = true)
    ∧ ∀ val : Nat, ((val &&& 0x1000) >>> 12 = 0 ∨ (val &&& 0x1000) >>> 12 = 1)
        ∧ (get_packet_type val).isSome = true := by
  constructor
  · intro buf hlen
    obtain ⟨b0, b1, b2, b3, b4, b5, rfl⟩ := length_six_exists buf hlen
    simp only [PrimaryHeader.from_buffer, get_packet_type_eq]
    simp
  · intro val
    constructor
    · rw [packet_type_bits_eq]
      omega
    · rw [get_packet_type_eq]
      simp

/-- C10 witness: totality applied to the concrete SP1 header bytes and to the
concrete word 0x1873. -/
theorem header_decode_total_witness :
    (PrimaryHeader.from_buffer SP1_HEADER).isSome = true
      ∧ (((0x1873 : Nat) &&& 0x1000) >>> 12 = 0 ∨ ((0x1873 : Nat) &&& 0x1000) >>> 12 = 1)
      ∧ (get_packet_type 0x1873).isSome = true :=
  ⟨header_decode_total.1 SP1_HEADER (by decide), header_decode_total.2 0x1873⟩

/-! ## Claim theorems: concrete evaluations -/

/-- C7: the worked decode example.  `Packet::from_buffers` applied to the SP1
header bytes and 16-byte body yields exactly the packet of spec section 8:
version_number 0, packet_type Telemetry, secondary_header_flag true, apid
0x0073, sequence_flags 0x03, sequence_counter 0x0123, data_length 0x000F,
secondary header time_week 0x00001234 and time_ms 0x00ABCDEF, user data
[0xA5, 0xA5, 0x5A, 0x5A, 0xC3, 0x3C], and checksum 0xC1F8. -/
theorem worked_example_sp1_decode :
    Packet.from_buffers SP1_HEADER SP1_BODY = .ok sp1Packet := by
  decide

/-- C3 (refuted, code bug): on a source that ends exactly at a header boundary
the claim expects `Reader::run` to terminate cleanly with no packet for the
final empty header-read attempt.  Instead, because `run()` parses and sends
before checking the stop signal, an empty source (zero complete frames) makes
the run panic while parsing the zero-filled stale header buffer with an empty
data buffer (debug-mode underflow of `data_buf.len() - 2`), and a source of
one complete valid frame makes the run re-parse the stale buffers of that
frame and publish its packet twice before stopping. -/
theorem reader_exact_boundary_stale_parse :
    Reader.run [] = ([], .panicked .subOverflow)
      ∧ Reader.run (SP1_HEADER ++ SP1_BODY) = ([sp1Packet, sp1Packet], .cleanStop) := by
  constructor
  · decide
  · decide

/-- C4 (refuted, code bug): a source offering 1-5 header bytes then ending is
claimed to be reported as a truncated-frame read error.  Instead `read()` maps
the `UnexpectedEof` of the partial header read to the clean-stop signal
`Ok(true)`, and `run()` then panics parsing the partially overwritten stale
header buffer with an empty data buffer: the outcome is a parse panic
(`.panicked .subOverflow`), not the contextualized read error (`.readErr`)
the claim requires, for both a 3-byte and a 5-byte source. -/
theorem reader_truncated_header_stale_parse :
    Reader.run [0x08, 0x73, 0xC1] = ([], .panicked .subOverflow)
      ∧ Reader.run [0x08, 0x73, 0xC1, 0x23, 0x00] = ([], .panicked .subOverflow) := by
  constructor
  · decide
  · decide

/-- C8 (refuted, code bug): for a source that is the concatenation of N = 2
complete valid frames, the claim expects exactly 2 published packets.  The
relative order of the frames is preserved, but the stop iteration re-parses
the stale buffers of the last frame and publishes its packet again: 3 packets
for 2 frames. -/
theorem reader_two_frames_three_packets :
    Reader.run (SP1_HEADER ++ SP1_BODY ++ SP2_HEADER ++ SP2_BODY)
      = ([sp1Packet, sp2Packet, sp2Packet], .cleanStop) := by
  decide

/-- C2 counterexample: flipping one bit in the trailing checksum bytes of the
previously-valid SP1 frame (last byte 0xF8 becomes 0xF9) makes the accumulated
checksum nonzero, and `Packet::from_buffers` then aborts at
`assert_eq!(checksum, 0)` (modelled as `.error .assertEqFail`, a panic that
unwinds the process) — it does not return a recoverable checksum-validation
decode error as the claim states. -/
theorem from_buffers_checksum_mismatch_aborts :
    Packet.from_buffers SP1_HEADER
      [0x00, 0x00, 0x12, 0x34, 0x00, 0xAB, 0xCD, 0xEF,
       0xA5, 0xA5, 0x5A, 0x5A, 0xC3, 0x3C, 0xC1, 0xF9]
      = .error .assertEqFail := by
  decide

/-- C6 counterexample: on a data buffer shorter than the mandatory 2-byte
checksum, `Packet::from_buffers` does not report a framing/decode error as the
claim states; it performs the length underflow `data_buf.len() - 2` (a
debug-build panic, modelled `.error .subOverflow`). -/
theorem from_buffers_underlength_underflow :
    Packet.from_buffers SP2_HEADER [0x2D] = .error .subOverflow := by
  decide

/-! ## Path analysis of Packet.from_buffers (C5, C6, C2) -/

theorem exists_eight_cons (l : List Nat) (h : 8 ≤ l.length) :
    ∃ a0 a1 a2 a3 a4 a5 a6 a7 t, l = a0 :: a1 :: a2 :: a3 :: a4 :: a5 :: a6 :: a7 :: t := by
  rcases l with _ | ⟨a0, l⟩
  · simp at h
  rcases l with _ | ⟨a1, l⟩
  · simp at h
  rcases l with _ | ⟨a2, l⟩
  · simp at h
  rcases l with _ | ⟨a3, l⟩
  · simp at h
  rcases l with _ | ⟨a4, l⟩
  · simp at h
  rcases l with _ | ⟨a5, l⟩
  · simp at h
  rcases l with _ | ⟨a6, l⟩
  · simp at h
  rcases l with _ | ⟨a7, l⟩
  · simp at h
  exact ⟨a0, a1, a2, a3, a4, a5, a6, a7, l, rfl⟩

theorem sec_from_buffer_take (l : List Nat) (h : 8 ≤ l.length) :
    ∃ s, SecondaryHeader.from_buffer (listSlice l 0 8) = some s := by
  obtain ⟨a0, a1, a2, a3, a4, a5, a6, a7, t, rfl⟩ := exists_eight_cons l h
  exact ⟨_, rfl⟩

theorem exists_last_two (l : List Nat) (h : 2 ≤ l.length) :
    ∃ c0 c1, l.drop (l.length - 2) = [c0, c1] := by
  have hl : (l.drop (l.length - 2)).length = 2 := by
    rw [List.length_drop]
    omega
  exact List.length_eq_two.mp hl

/-- C6 (amended): on a data buffer shorter than the mandatory 2-byte checksum
`Packet::from_buffers` panics with the debug-mode length underflow of
`data_buf.len() - 2`, and on a buffer of 2 to 7 bytes with a flagged secondary
header it panics slicing `&data_buf[0..8]` out of range; neither case reports
a recoverable framing/decode error (the function has no error channel). -/
theorem from_buffers_underlength_panics :
    ∀ (hb db : List Nat) (ph : PrimaryHeader), PrimaryHeader.from_buffer hb = some ph →
      (db.length < 2 → Packet.from_buffers hb db = .error .subOverflow)
      ∧ (ph.secondary_header_flag = true → 2 ≤ db.length → db.length < 8 →
          Packet.from_buffers hb db = .error .sliceOutOfRange) := by
  intro hb db ph hph
  constructor
  · intro hlen
    simp only [Packet.from_buffers, hph]
    rw [if_pos hlen]
  · intro hflag h2 h8
    have h10 : decide (db.length > 10) = false := decide_eq_false (by omega)
    simp only [Packet.from_buffers, hph, hflag, h10, if_true, reduceIte]
    rw [if_neg (by omega), if_pos h8]

/-- C6 witness: the amended theorem applied at a concrete flagged header
(SP1) with a 3-byte data buffer, hitting the out-of-range slice panic. -/
theorem from_buffers_underlength_panics_witness :
    Packet.from_buffers SP1_HEADER [0x01, 0x02, 0x03] = .error .sliceOutOfRange := by
  have h := from_buffers_underlength_panics SP1_HEADER [0x01, 0x02, 0x03]
    sp1Packet.pri_header (by decide)
  exact h.2 (by decide) (by decide) (by decide)

/-! ## Linearity of the CRC register over xor, and the bit-flip lemmas (C2) -/

theorem xor_left_comm (a b c : Nat) : a ^^^ (b ^^^ c) = b ^^^ (a ^^^ c) := by
  rw [← Nat.xor_assoc, Nat.xor_comm a b, Nat.xor_assoc]

theorem shiftLeft_xor (a b n : Nat) : (a ^^^ b) <<< n = (a <<< n) ^^^ (b <<< n) := by
  apply Nat.eq_of_testBit_eq
  intro j
  rw [Nat.testBit_shiftLeft, Nat.testBit_xor, Nat.testBit_xor,
    Nat.testBit_shiftLeft, Nat.testBit_shiftLeft]
  by_cases hj : j ≥ n
  · simp [hj]
  · simp [hj]

theorem crcRound_xor (x y : Nat) : crcRound (x ^^^ y) = crcRound x ^^^ crcRound y := by
  unfold crcRound
  rw [Nat.testBit_xor]
  cases hx : x.testBit 15 <;> cases hy : y.testBit 15 <;>
    simp [shiftLeft_xor, ← Nat.and_xor_distrib_right, Nat.xor_assoc, Nat.xor_comm,
      xor_left_comm, Nat.xor_self, Nat.xor_zero, Nat.zero_xor]

theorem crcRounds_xor (n x y : Nat) :
    crcRounds n (x ^^^ y) = crcRounds n x ^^^ crcRounds n y := by
  induction n generalizing x y with
  | zero => rfl
  | succ n ih => simp [crcRounds, crcRound_xor, ih]

theorem crcStep_state_xor (s e b : Nat) :
    crcStep (s ^^^ e) b = crcStep s b ^^^ crcRounds 8 e := by
  unfold crcStep
  rw [show (s ^^^ e) ^^^ (b <<< 8) = (s ^^^ b <<< 8) ^^^ e by
    rw [Nat.xor_assoc, Nat.xor_comm e (b <<< 8), ← Nat.xor_assoc]]
  rw [crcRounds_xor]

theorem crcStep_byte_xor (s b d : Nat) :
    crcStep s (b ^^^ d) = crcStep s b ^^^ crcRounds 8 (d <<< 8) := by
  unfold crcStep
  rw [shiftLeft_xor, ← Nat.xor_assoc, crcRounds_xor]

theorem accumulate_last2 (s : Nat) (m : List Nat) (c1 c2 : Nat) :
    accumulate s (m ++ [c1, c2]) = crcStep (crcStep (accumulate s m) c1) c2 := by
  simp [accumulate, List.foldl_append]

theorem single_rounds_nonzero : ∀ k < 8, crcRounds 8 ((2 ^ k) <<< 8) ≠ 0 := by decide

theorem double_rounds_nonzero : ∀ k < 8, crcRounds 8 (crcRounds 8 ((2 ^ k) <<< 8)) ≠ 0 := by
  decide

/-- Helper for C2: whenever the checksum assertion is reached (the header
decodes and the buffer is long enough for the earlier panics not to fire) with
a nonzero accumulated value, `Packet::from_buffers` aborts at
`assert_eq!(checksum, 0)`. -/
theorem from_buffers_assert_abort (hb db : List Nat) (ph : PrimaryHeader)
    (hph : PrimaryHeader.from_buffer hb = some ph) (h2 : 2 ≤ db.length)
    (h8 : ph.secondary_header_flag = true → 8 ≤ db.length)
    (hck : accumulate (accumulate INITIAL_VALUE hb) db ≠ 0) :
    Packet.from_buffers hb db = .error .assertEqFail := by
  rw [Packet.from_buffers, hph]
  dsimp only
  rw [if_neg (show ¬ db.length < 2 by omega)]
  by_cases hsf : ph.secondary_header_flag = true
  case neg =>
    have hsf0 : ph.secondary_header_flag = false := by
      cases hq : ph.secondary_header_flag
      · rfl
      · exact absurd hq hsf
    rw [if_neg hsf, hsf0]
    by_cases hud : db.length > 2
    · simp only [decide_eq_true hud]
      rw [if_pos hck]
    · simp only [decide_eq_false hud]
      rw [if_pos hck]
  case pos =>
    rw [if_pos hsf, hsf]
    by_cases hud : db.length > 10
    · rcases sec_from_buffer_take db (by omega) with ⟨s, hs⟩
      simp only [decide_eq_true hud, hs]
      rw [if_pos hck]
    · rcases sec_from_buffer_take db (h8 hsf) with ⟨s, hs⟩
      simp only [decide_eq_false hud]
      rw [if_neg (show ¬ db.length < 8 by have := h8 hsf; omega)]
      simp only [hs]
      rw [if_pos hck]

/-- Helper for C2: inverting a successful decode — the header decoded, the
buffer was long enough, and the accumulated checksum was zero. -/
theorem from_buffers_ok_inversion (hb db : List Nat) (p : Packet)
    (h : Packet.from_buffers hb db = .ok p) :
    ∃ ph, PrimaryHeader.from_buffer hb = some ph ∧ 2 ≤ db.length ∧
      (ph.secondary_header_flag = true → 8 ≤ db.length) ∧
      accumulate (accumulate INITIAL_VALUE hb) db = 0 := by
  rcases hfb : PrimaryHeader.from_buffer hb with _ | ph
  · rw [Packet.from_buffers, hfb] at h
    exact absurd h (by simp)
  rw [Packet.from_buffers, hfb] at h
  dsimp only at h
  by_cases hlen : db.length < 2
  · rw [if_pos hlen] at h
    exact absurd h (by simp)
  rw [if_neg hlen] at h
  by_cases hck : accumulate (accumulate INITIAL_VALUE hb) db = 0
  case neg =>
    exfalso
    cases hsf : ph.secondary_header_flag
    case false =>
      rw [if_neg (show ¬ (ph.secondary_header_flag = true) by simp [hsf]), hsf] at h
      by_cases h2 : db.length > 2
      · simp [decide_eq_true h2, hck] at h
      · simp [decide_eq_false h2, hck] at h
    case true =>
      rw [if_pos hsf, hsf] at h
      by_cases h10 : db.length > 10
      · rcases sec_from_buffer_take db (by omega) with ⟨s, hs⟩
        simp [decide_eq_true h10, hs, hck] at h
      · by_cases h8 : db.length < 8
        · simp [decide_eq_false h10, h8] at h
        · rcases sec_from_buffer_take db (by omega) with ⟨s, hs⟩
          simp [decide_eq_false h10, h8, hs, hck] at h
  case pos =>
    refine ⟨ph, rfl, by omega, ?_, hck⟩
    intro hsf
    by_contra h8
    rw [if_pos hsf, hsf] at h
    have h10 : ¬ db.length > 10 := by omega
    simp [decide_eq_false h10, show db.length < 8 by omega] at h

/-- C2 (amended): any nonzero accumulated checksum over header bytes then all
data bytes makes `Packet::from_buffers` abort at `assert_eq!(checksum, 0)` (a
panic that unwinds the process, `.error .assertEqFail`) rather than return a
recoverable checksum-validation decode error; in particular flipping any
single bit of the trailing two checksum bytes of a previously-valid frame
(one that decoded successfully) makes the accumulated CRC nonzero and yields
the assertion abort, never a silently-accepted packet. -/
theorem checksum_mismatch_abort_and_bitflip :
    (∀ (hb db : List Nat) (ph : PrimaryHeader), PrimaryHeader.from_buffer hb = some ph →
      2 ≤ db.length → (ph.secondary_header_flag = true → 8 ≤ db.length) →
      accumulate (accumulate INITIAL_VALUE hb) db ≠ 0 →
      Packet.from_buffers hb db = .error .assertEqFail)
    ∧ ∀ (hb m : List Nat) (c1 c2 k : Nat) (p : Packet), k < 8 →
        Packet.from_buffers hb (m ++ [c1, c2]) = .ok p →
        Packet.from_buffers hb (m ++ [c1 ^^^ 2 ^ k, c2]) = .error .assertEqFail
          ∧ Packet.from_buffers hb (m ++ [c1, c2 ^^^ 2 ^ k]) = .error .assertEqFail := by
  constructor
  · exact from_buffers_assert_abort
  · intro hb m c1 c2 k p hk hok
    obtain ⟨ph, hfb, h2, h8, hck⟩ := from_buffers_ok_inversion hb (m ++ [c1, c2]) p hok
    have h0 : crcStep (crcStep (accumulate (accumulate INITIAL_VALUE hb) m) c1) c2 = 0 := by
      rw [← accumulate_last2]
      exact hck
    constructor
    · refine from_buffers_assert_abort hb _ ph hfb ?_ ?_ ?_
      · simp only [List.length_append, List.length_cons, List.length_nil]
        omega
      · intro hf
        have hx := h8 hf
        simp only [List.length_append, List.length_cons, List.length_nil] at hx ⊢
        omega
      · rw [accumulate_last2, crcStep_byte_xor, crcStep_state_xor, h0, Nat.zero_xor]
        exact double_rounds_nonzero k hk
    · refine from_buffers_assert_abort hb _ ph hfb ?_ ?_ ?_
      · simp only [List.length_append, List.length_cons, List.length_nil]
        omega
      · intro hf
        have hx := h8 hf
        simp only [List.length_append, List.length_cons, List.length_nil] at hx ⊢
        omega
      · rw [accumulate_last2, crcStep_byte_xor, h0, Nat.zero_xor]
        exact single_rounds_nonzero k hk

/-- C2 witness: the amended theorem applied to the valid SP1 frame with bit 3
of the first trailing checksum byte flipped. -/
theorem checksum_mismatch_abort_and_bitflip_witness :
    Packet.from_buffers SP1_HEADER
      ([0x00, 0x00, 0x12, 0x34, 0x00, 0xAB, 0xCD, 0xEF,
        0xA5, 0xA5, 0x5A, 0x5A, 0xC3, 0x3C] ++ [0xC1 ^^^ 2 ^ 3, 0xF8])
      = .error .assertEqFail :=
  (checksum_mismatch_abort_and_bitflip.2 SP1_HEADER
    [0x00, 0x00, 0x12, 0x34, 0x00, 0xAB, 0xCD, 0xEF, 0xA5, 0xA5, 0x5A, 0x5A, 0xC3, 0x3C]
    0xC1 0xF8 3 sp1Packet (by decide) (by decide)).1

/-- C5: field-presence rule.  For every header and data buffer accepted by
`Packet::from_buffers`, the packet has a secondary header exactly when the
decoded primary header flags one, and user data exactly when the data field
minus the 8-byte secondary header (when flagged) minus the trailing 2-byte
checksum has strictly positive length, in which case the user data is exactly
the byte range [8, len-2) (flag set) or [0, len-2) (flag clear) of the data
buffer. -/
theorem packet_field_presence :
    ∀ (hb db : List Nat) (p : Packet), Packet.from_buffers hb db = .ok p →
      ((p.sec_header.isSome = true) ↔ p.pri_header.secondary_header_flag = true)
      ∧ ((p.user_data.isSome = true) ↔
          0 < db.length - (if p.pri_header.secondary_header_flag then 8 else 0) - 2)
      ∧ ∀ u, p.user_data = some u →
          u.data = if p.pri_header.secondary_header_flag
            then (db.take (db.length - 2)).drop 8 else db.take (db.length - 2) := by
  intro hb db p h
  rcases hfb : PrimaryHeader.from_buffer hb with _ | ph
  · rw [Packet.from_buffers, hfb] at h
    exact absurd h (by simp)
  rw [Packet.from_buffers, hfb] at h
  dsimp only at h
  by_cases hlen : db.length < 2
  · rw [if_pos hlen] at h
    exact absurd h (by simp)
  rw [if_neg hlen] at h
  obtain ⟨c0, c1, htail⟩ := exists_last_two db (by omega)
  by_cases hck : accumulate (accumulate INITIAL_VALUE hb) db = 0
  case neg =>
    -- with a nonzero accumulated checksum no branch can return Except.ok
    exfalso
    cases hsf : ph.secondary_header_flag
    case false =>
      rw [if_neg (show ¬ (ph.secondary_header_flag = true) by simp [hsf]), hsf] at h
      by_cases h2 : db.length > 2
      · simp [decide_eq_true h2, hck] at h
      · simp [decide_eq_false h2, hck] at h
    case true =>
      rw [if_pos hsf, hsf] at h
      by_cases h10 : db.length > 10
      · rcases sec_from_buffer_take db (by omega) with ⟨s, hs⟩
        simp [decide_eq_true h10, hs, hck] at h
      · by_cases h8 : db.length < 8
        · simp [decide_eq_false h10, h8] at h
        · rcases sec_from_buffer_take db (by omega) with ⟨s, hs⟩
          simp [decide_eq_false h10, h8, hs, hck] at h
  case pos =>
  cases hsf : ph.secondary_header_flag
  case false =>
    rw [if_neg (show ¬ (ph.secondary_header_flag = true) by simp [hsf]), hsf] at h
    by_cases h2 : db.length > 2
    · simp only [decide_eq_true h2, htail] at h
      rw [if_neg (show ¬ accumulate (accumulate INITIAL_VALUE hb) db ≠ 0 by simp [hck])] at h
      rw [Except.ok.injEq] at h
      subst h
      refine ⟨by simp [hsf], ?_, ?_⟩
      · simp [hsf]
        omega
      · intro u hu
        rw [Option.some.injEq] at hu
        subst hu
        simp [hsf, UserDataField.from_buffer, listSlice]
    · simp only [decide_eq_false h2, htail] at h
      rw [if_neg (show ¬ accumulate (accumulate INITIAL_VALUE hb) db ≠ 0 by simp [hck])] at h
      rw [Except.ok.injEq] at h
      subst h
      refine ⟨by simp [hsf], ?_, ?_⟩
      · simp [hsf]
        omega
      · intro u hu
        exact absurd hu (by simp)
  case true =>
    rw [if_pos hsf, hsf] at h
    by_cases h10 : db.length > 10
    · rcases sec_from_buffer_take db (by omega) with ⟨s, hs⟩
      simp only [decide_eq_true h10, hs, htail] at h
      rw [if_neg (show ¬ accumulate (accumulate INITIAL_VALUE hb) db ≠ 0 by simp [hck])] at h
      rw [Except.ok.injEq] at h
      subst h
      refine ⟨by simp [hsf], ?_, ?_⟩
      · simp [hsf]
        omega
      · intro u hu
        rw [Option.some.injEq] at hu
        subst hu
        simp [hsf, UserDataField.from_buffer, listSlice]
    · by_cases h8 : db.length < 8
      · simp [decide_eq_false h10, h8] at h
      · rcases sec_from_buffer_take db (by omega) with ⟨s, hs⟩
        simp only [decide_eq_false h10, if_neg h8, hs, htail] at h
        rw [if_neg (show ¬ accumulate (accumulate INITIAL_VALUE hb) db ≠ 0 by simp [hck])] at h
        rw [Except.ok.injEq] at h
        subst h
        refine ⟨by simp [hsf], ?_, ?_⟩
        · simp [hsf]
          omega
        · intro u hu
          exact absurd hu (by simp)

/-- C5 witness: the field-presence rule applied to the concrete SP1 decode. -/
theorem packet_field_presence_witness :
    ((sp1Packet.sec_header.isSome = true) ↔ sp1Packet.pri_header.secondary_header_flag = true)
      ∧ ((sp1Packet.user_data.isSome = true) ↔
          0 < SP1_BODY.length - (if sp1Packet.pri_header.secondary_header_flag then 8 else 0) - 2)
      ∧ ∀ u, sp1Packet.user_data = some u →
          u.data = if sp1Packet.pri_header.secondary_header_flag
            then (SP1_BODY.take (SP1_BODY.length - 2)).drop 8
            else SP1_BODY.take (SP1_BODY.length - 2) :=
  packet_field_presence SP1_HEADER SP1_BODY sp1Packet (by decide)

/-! ## Claim theorems: split-encode equivalence (C9) -/

/-- C9: split-encode equivalence.  For every packet `p`, if `(header, body) =
p.into_buffers()` then `header ++ body = p.into_buffer()`: accumulating the
checksum over the 6-byte header alone and then continuing the running
accumulator over the rest equals checksumming the whole concatenated buffer at
once.  The second conjunct is the incremental-accumulator contract of spec
section 6 for the modelled accumulator:
`accumulate (accumulate s a) b = accumulate s (a ++ b)`. -/
theorem into_buffers_split_encode_equiv :
    (∀ p : Packet, (p.into_buffers).1 ++ (p.into_buffers).2 = p.into_buffer)
      ∧ ∀ (s : Nat) (a b : List Nat), accumulate (accumulate s a) b = accumulate s (a ++ b) := by
  constructor
  · intro p
    simp only [Packet.into_buffers, Packet.into_buffer, append_checksum,
      finalize_and_append, accumulate, List.foldl_append, List.append_assoc]
  · intro s a b
    simp [accumulate, List.foldl_append]

/-- C9 witness: the split-encode equivalence evaluated at the concrete SP1
packet (the theorem itself has no hypotheses; this is a sanity instance). -/
theorem into_buffers_split_encode_equiv_witness :
    (sp1Packet.into_buffers).1 ++ (sp1Packet.into_buffers).2 = sp1Packet.into_buffer :=
  into_buffers_split_encode_equiv.1 sp1Packet

end SpacePackets
